import Mathlib

/-!
Verification development for the simple-transaction demo
(src/wasm/nodejs/simple-transaction.js) and its specification.

The demo script fetches UTXO entries over RPC, sorts them with a
JavaScript comparator, calls the wasm builder createTransactions, and
drives each pending transaction through sign and submit in a loop.
The builder itself (createTransactions), the mass and fee estimator and
kaspaToSompi live in the external wasm module; for properties about
them the definitions below are modelled from the spec and marked as
such.  Everything about the script itself (the comparator, the sort,
the control flow of runDemo, the argument handling) is embedded
directly from the source.
-/

/-! ## Data model -/

/-- An outpoint: transaction id plus output index.  Identity of a UTXO. -/
structure Outpoint where
  txId : Nat
  index : Nat
deriving DecidableEq

/-- The inner utxoEntry object of an RPC entry; the demo's comparator
reads only its amount field. -/
structure UtxoEntryData where
  amount : Nat
deriving DecidableEq

/-- One element of the entries array returned by
rpc.getUtxosByAddresses, as read by the demo script: an outpoint plus
the nested utxoEntry holding the amount. -/
structure RpcUtxoEntry where
  outpoint : Outpoint
  utxoEntry : UtxoEntryData
deriving DecidableEq

/-! ## The JS comparator of entries.sort (source lines 55-56)

The source comparator is
  (a, b) => a.utxoEntry.amount > b.utxoEntry.amount
            || -(a.utxoEntry.amount < b.utxoEntry.amount)
In JavaScript, when the amounts satisfy a > b the expression
short-circuits to the boolean true, which the sort machinery coerces to
the number 1; otherwise the right operand -(a < b) is returned, which is
-1 when a < b and negative zero (numerically zero) when the amounts are
equal.  The shallow embedding below returns that coerced number. -/

/-- The comparator passed to entries.sort, after JS number coercion:
1 when the first amount is larger, -1 when smaller, 0 when equal. -/
def sortCompare (a b : RpcUtxoEntry) : Int :=
  if a.utxoEntry.amount > b.utxoEntry.amount then 1
  else if a.utxoEntry.amount < b.utxoEntry.amount then -1
  else 0

/-- The ordering induced by the comparator: a may stay before b exactly
when the comparator does not demand a swap. -/
def entryLe (a b : RpcUtxoEntry) : Prop :=
  sortCompare a b ≤ 0

instance : DecidableRel entryLe := fun a b => by
  unfold entryLe; infer_instance

theorem entryLe_iff (a b : RpcUtxoEntry) :
    entryLe a b ↔ a.utxoEntry.amount ≤ b.utxoEntry.amount := by
  unfold entryLe sortCompare
  rcases lt_trichotomy a.utxoEntry.amount b.utxoEntry.amount with h | h | h
  · simp [Nat.not_lt.mpr (Nat.le_of_lt h), h, Nat.le_of_lt h]
  · simp [h]
  · simp [h, Nat.not_lt.mpr (Nat.le_of_lt h), Nat.not_le.mpr h]

instance : IsTotal RpcUtxoEntry entryLe :=
  ⟨fun a b => by
    rw [entryLe_iff, entryLe_iff]
    exact Nat.le_total _ _⟩

instance : IsTrans RpcUtxoEntry entryLe :=
  ⟨fun a b c hab hbc => by
    rw [entryLe_iff] at *
    exact Nat.le_trans hab hbc⟩

/-- The effect of entries.sort on the entries array.
Array.prototype.sort is required to be stable and, for a consistent
comparator such as sortCompare, produces the unique stable arrangement
consistent with it; a stable insertion sort under entryLe computes
exactly that arrangement. -/
def jsSortEntries (l : List RpcUtxoEntry) : List RpcUtxoEntry :=
  List.insertionSort entryLe l

/-! ### Sortedness, permutation and stability of jsSortEntries -/

theorem jsSortEntries_perm (l : List RpcUtxoEntry) :
    List.Perm (jsSortEntries l) l :=
  List.perm_insertionSort entryLe l

theorem jsSortEntries_sorted (l : List RpcUtxoEntry) :
    List.Sorted entryLe (jsSortEntries l) :=
  List.sorted_insertionSort entryLe l

/-- Inserting an entry whose amount is v walks only past strictly
smaller amounts, so the v-amount entries of the result are the inserted
entry followed by those of the original list. -/
theorem filter_orderedInsert_pos (v : Nat) (x : RpcUtxoEntry)
    (hx : x.utxoEntry.amount = v) :
    ∀ l : List RpcUtxoEntry,
      (List.orderedInsert entryLe x l).filter
          (fun e => e.utxoEntry.amount = v) =
        x :: l.filter (fun e => e.utxoEntry.amount = v) := by
  intro l
  induction l with
  | nil => simp [List.orderedInsert, hx]
  | cons y ys ih =>
    by_cases h : entryLe x y
    · simp [List.orderedInsert, h, hx]
    · have hylt : y.utxoEntry.amount < x.utxoEntry.amount := by
        have := (entryLe_iff x y).not.mp h
        omega
      have hyv : ¬ (y.utxoEntry.amount = v) := by omega
      simp [List.orderedInsert, h, List.filter_cons, hyv, ih]

/-- Inserting an entry whose amount is not v leaves the v-amount
entries of the list unchanged, in order. -/
theorem filter_orderedInsert_neg (v : Nat) (x : RpcUtxoEntry)
    (hx : ¬ (x.utxoEntry.amount = v)) :
    ∀ l : List RpcUtxoEntry,
      (List.orderedInsert entryLe x l).filter
          (fun e => e.utxoEntry.amount = v) =
        l.filter (fun e => e.utxoEntry.amount = v) := by
  intro l
  induction l with
  | nil => simp [List.orderedInsert, hx]
  | cons y ys ih =>
    by_cases h : entryLe x y
    · simp [List.orderedInsert, h, hx]
    · simp [List.orderedInsert, h, List.filter_cons, ih]

/-- Stability of the sort: for every amount value v, the subsequence of
entries carrying amount v is unchanged by jsSortEntries — equal-amount
entries keep their original relative order. -/
theorem jsSortEntries_stable (v : Nat) (l : List RpcUtxoEntry) :
    (jsSortEntries l).filter (fun e => e.utxoEntry.amount = v) =
      l.filter (fun e => e.utxoEntry.amount = v) := by
  induction l with
  | nil => rfl
  | cons x xs ih =>
    by_cases hx : x.utxoEntry.amount = v
    · unfold jsSortEntries at *
      simp only [List.insertionSort]
      rw [filter_orderedInsert_pos v x hx, ih, List.filter_cons]
      simp [hx]
    · unfold jsSortEntries at *
      simp only [List.insertionSort]
      rw [filter_orderedInsert_neg v x hx, ih, List.filter_cons]
      simp [hx]

/-- Strict ordering on entries by amount; antisymmetric, used to show
that sorting entries with pairwise-distinct amounts is independent of
the enumeration order. -/
def entryLt (a b : RpcUtxoEntry) : Prop :=
  a.utxoEntry.amount < b.utxoEntry.amount

instance : IsAntisymm RpcUtxoEntry entryLt :=
  ⟨fun _ _ h h' => absurd (Nat.lt_trans h h') (Nat.lt_irrefl _)⟩

theorem sorted_lt_of_sorted_le_distinct (l : List RpcUtxoEntry)
    (hs : List.Sorted entryLe l)
    (hd : l.Pairwise (fun a b => a.utxoEntry.amount ≠ b.utxoEntry.amount)) :
    List.Sorted entryLt l := by
  have := List.Pairwise.and hs hd
  refine this.imp ?_
  intro a b hab
  have hle := (entryLe_iff a b).mp hab.1
  exact lt_of_le_of_ne hle hab.2

/-- Two sorted arrangements of the same multiset of entries with
pairwise-distinct amounts coincide. -/
theorem eq_of_perm_sorted_distinct (l₁ l₂ : List RpcUtxoEntry)
    (hp : List.Perm l₁ l₂)
    (hs₁ : List.Sorted entryLe l₁) (hs₂ : List.Sorted entryLe l₂)
    (hd : l₁.Pairwise (fun a b => a.utxoEntry.amount ≠ b.utxoEntry.amount)) :
    l₁ = l₂ := by
  have hd₂ : l₂.Pairwise (fun a b => a.utxoEntry.amount ≠ b.utxoEntry.amount) := by
    exact (List.Perm.pairwise_iff (fun h => Ne.symm h) hp).mp hd
  exact List.eq_of_perm_of_sorted hp
    (sorted_lt_of_sorted_le_distinct l₁ hs₁ hd)
    (sorted_lt_of_sorted_le_distinct l₂ hs₂ hd₂)

/-! ## The runDemo control flow (source lines 18-80)

runDemo fetches entries, and when the entries array is non-empty it
calls createTransactions once and then loops over the returned pending
transactions, awaiting pending.sign and pending.submit for each in
order.  The loop body has no try/catch: a rejected promise propagates
out of runDemo, skipping rpc.disconnect().  When the entries array is
empty, the script only logs a message and proceeds to rpc.disconnect().

The embedding records the observable actions of a run as a list of
events, together with a per-transaction status and a flag saying
whether the run completed normally (true) or an exception propagated
(false).  The outcomes of the external sign and submit calls are an
oracle parameter, and the number of pending transactions returned by
the external builder is a parameter as well. -/

/-- Observable actions of one run of the demo script. -/
inductive DemoEvent where
  | reportNoUtxos
  | callBuild
  | signTx (i : Nat)
  | submitTx (i : Nat)
  | gotTxid (i : Nat)
  | disconnectRpc
deriving DecidableEq

/-- Status of a pending transaction as seen from outside the script.
The script itself never writes any cancellation or rejection marker;
dependencyCancelled and rejectedByNode exist so that claims about such
markers can be stated and refuted against the embedding. -/
inductive TxStatus where
  | built
  | signedOk
  | submittedOk
  | dependencyCancelled
  | rejectedByNode
deriving DecidableEq

/-- Outcomes of the external sign and submit calls, per transaction
index: true means the awaited promise resolves, false means it
rejects. -/
structure PipelineOracle where
  signOk : Nat → Bool
  submitOk : Nat → Bool

/-- Whether transaction i makes it through both sign and submit. -/
def txOk (oracle : PipelineOracle) (i : Nat) : Bool :=
  oracle.signOk i && oracle.submitOk i

/-- The for-loop of runDemo over the pending transactions, starting at
index i with r transactions left, threading the status list sts.
Returns the events emitted, the final statuses, and true when the loop
ran to completion (false when an awaited call rejected and the
exception propagated). -/
def runPipeline (oracle : PipelineOracle) :
    Nat → Nat → List TxStatus → List DemoEvent × List TxStatus × Bool
  | _, 0, sts => ([], sts, true)
  | i, r + 1, sts =>
    if oracle.signOk i then
      let sts1 := sts.set i TxStatus.signedOk
      if oracle.submitOk i then
        let sts2 := sts1.set i TxStatus.submittedOk
        let rest := runPipeline oracle (i + 1) r sts2
        (DemoEvent.signTx i :: DemoEvent.submitTx i :: DemoEvent.gotTxid i :: rest.1,
          rest.2.1, rest.2.2)
      else
        ([DemoEvent.signTx i, DemoEvent.submitTx i], sts1, false)
    else
      ([DemoEvent.signTx i], sts, false)

/-- One run of runDemo: entries is the fetched entries array, n the
number of pending transactions returned by createTransactions for a
non-empty entries array.  Mirrors the source: the empty-entries branch
only reports and disconnects; the non-empty branch builds, loops, and
reaches rpc.disconnect() only when no exception propagated out of the
loop. -/
def runDemoModel (entries : List RpcUtxoEntry) (n : Nat)
    (oracle : PipelineOracle) : List DemoEvent × List TxStatus × Bool :=
  if entries.isEmpty then
    ([DemoEvent.reportNoUtxos, DemoEvent.disconnectRpc], [], true)
  else
    let run := runPipeline oracle 0 n (List.replicate n TxStatus.built)
    if run.2.2 then
      (DemoEvent.callBuild :: run.1 ++ [DemoEvent.disconnectRpc], run.2.1, true)
    else
      (DemoEvent.callBuild :: run.1, run.2.1, false)

/-! ### Helper lemmas about statuses -/

theorem statusGetD_set_ne (sts : List TxStatus) :
    ∀ (i j : Nat) (v d : TxStatus), i ≠ j →
      (sts.set i v).getD j d = sts.getD j d := by
  induction sts with
  | nil => intro i j v d _; rfl
  | cons a tl ih =>
    intro i j v d hij
    cases i with
    | zero =>
      cases j with
      | zero => exact absurd rfl hij
      | succ j' => rfl
    | succ i' =>
      cases j with
      | zero => rfl
      | succ j' =>
        have : i' ≠ j' := fun h => hij (congrArg Nat.succ h)
        simpa [List.set, List.getD] using ih i' j' v d this

theorem statusGetD_set_cases (sts : List TxStatus) :
    ∀ (i j : Nat) (v d : TxStatus),
      (sts.set i v).getD j d = sts.getD j d ∨ (sts.set i v).getD j d = v := by
  intro i j v d
  by_cases hij : i = j
  · subst hij
    induction sts generalizing i with
    | nil => exact Or.inl rfl
    | cons a tl ih =>
      cases i with
      | zero => exact Or.inr rfl
      | succ i' => simp [List.set, List.getD] at ih ⊢; exact ih i'
  · exact Or.inl (statusGetD_set_ne sts i j v d hij)

theorem statusGetD_replicate (n j : Nat) (a : TxStatus) :
    (List.replicate n a).getD j a = a := by
  induction n generalizing j with
  | zero => rfl
  | succ n' ih =>
    cases j with
    | zero => rfl
    | succ j' => simp [List.replicate, List.getD]

/-! ### Behaviour of the submission loop -/

/-- If some transaction k at or after the starting index but before j
fails to sign or submit, then transaction j is never signed, never
submitted, and its status slot is never written. -/
theorem runPipeline_untouched (oracle : PipelineOracle) (j : Nat) :
    ∀ (r i : Nat) (sts : List TxStatus),
      (∃ k, i ≤ k ∧ k < j ∧ txOk oracle k = false) →
      DemoEvent.signTx j ∉ (runPipeline oracle i r sts).1 ∧
      DemoEvent.submitTx j ∉ (runPipeline oracle i r sts).1 ∧
      ∀ d, (runPipeline oracle i r sts).2.1.getD j d = sts.getD j d := by
  intro r
  induction r with
  | zero =>
    intro i sts _
    exact ⟨List.not_mem_nil _, List.not_mem_nil _, fun d => rfl⟩
  | succ r' ih =>
    intro i sts hk
    obtain ⟨k, hik, hkj, hkfail⟩ := hk
    have hij : i < j := Nat.lt_of_le_of_lt hik hkj
    have hji : j ≠ i := fun h => absurd (h ▸ hij) (Nat.lt_irrefl _)
    by_cases hs : oracle.signOk i
    · by_cases hsub : oracle.submitOk i
      · have hki : k ≠ i := by
          intro h
          rw [h] at hkfail
          simp [txOk, hs, hsub] at hkfail
        have hik' : i + 1 ≤ k := Nat.lt_of_le_of_ne hik (fun h => hki h.symm)
        have := ih (i + 1) ((sts.set i TxStatus.signedOk).set i TxStatus.submittedOk)
          ⟨k, hik', hkj, hkfail⟩
        simp only [runPipeline, if_pos hs, if_pos hsub]
        refine ⟨?_, ?_, ?_⟩
        · intro hmem
          rcases List.mem_cons.mp hmem with h | hmem
          · exact hji (by injection h)
          rcases List.mem_cons.mp hmem with h | hmem
          · cases h
          rcases List.mem_cons.mp hmem with h | hmem
          · cases h
          · exact this.1 hmem
        · intro hmem
          rcases List.mem_cons.mp hmem with h | hmem
          · cases h
          rcases List.mem_cons.mp hmem with h | hmem
          · exact hji (by injection h)
          rcases List.mem_cons.mp hmem with h | hmem
          · cases h
          · exact this.2.1 hmem
        · intro d
          rw [this.2.2 d]
          rw [statusGetD_set_ne _ i j _ d (fun h => hji h.symm)]
          rw [statusGetD_set_ne _ i j _ d (fun h => hji h.symm)]
      · simp only [runPipeline, if_pos hs, if_neg hsub]
        refine ⟨?_, ?_, ?_⟩
        · intro hmem
          rcases List.mem_cons.mp hmem with h | hmem
          · exact hji (by injection h)
          rcases List.mem_cons.mp hmem with h | hmem
          · cases h
          · exact List.not_mem_nil _ hmem
        · intro hmem
          rcases List.mem_cons.mp hmem with h | hmem
          · cases h
          rcases List.mem_cons.mp hmem with h | hmem
          · exact hji (by injection h)
          · exact List.not_mem_nil _ hmem
        · intro d
          exact statusGetD_set_ne _ i j _ d (fun h => hji h.symm)
    · simp only [runPipeline, if_neg hs]
      refine ⟨?_, ?_, fun d => trivial⟩
      · intro hmem
        rcases List.mem_cons.mp hmem with h | hmem
        · exact hji (by injection h)
        · exact List.not_mem_nil _ hmem
      · intro hmem
        rcases List.mem_cons.mp hmem with h | hmem
        · cases h
        · exact List.not_mem_nil _ hmem

/-- If any transaction in the processed range fails, the loop does not
run to completion: the rejected promise propagates. -/
theorem runPipeline_fails (oracle : PipelineOracle) :
    ∀ (r i : Nat) (sts : List TxStatus),
      (∃ k, i ≤ k ∧ k < i + r ∧ txOk oracle k = false) →
      (runPipeline oracle i r sts).2.2 = false := by
  intro r
  induction r with
  | zero =>
    intro i sts hk
    obtain ⟨k, hik, hki, _⟩ := hk
    omega
  | succ r' ih =>
    intro i sts hk
    obtain ⟨k, hik, hkr, hkfail⟩ := hk
    by_cases hs : oracle.signOk i
    · by_cases hsub : oracle.submitOk i
      · have hki : k ≠ i := by
          intro h
          rw [h] at hkfail
          simp [txOk, hs, hsub] at hkfail
        have hik' : i + 1 ≤ k := Nat.lt_of_le_of_ne hik (fun h => hki h.symm)
        have := ih (i + 1) ((sts.set i TxStatus.signedOk).set i TxStatus.submittedOk)
          ⟨k, hik', by omega, hkfail⟩
        simp only [runPipeline, if_pos hs, if_pos hsub]
        exact this
      · simp only [runPipeline, if_pos hs, if_neg hsub]
    · simp only [runPipeline, if_neg hs]

/-- The loop never emits the disconnect event: rpc.disconnect() lies
outside the loop. -/
theorem runPipeline_no_disconnect (oracle : PipelineOracle) :
    ∀ (r i : Nat) (sts : List TxStatus),
      DemoEvent.disconnectRpc ∉ (runPipeline oracle i r sts).1 := by
  intro r
  induction r with
  | zero => intro i sts; exact List.not_mem_nil _
  | succ r' ih =>
    intro i sts
    by_cases hs : oracle.signOk i
    · by_cases hsub : oracle.submitOk i
      · simp only [runPipeline, if_pos hs, if_pos hsub]
        intro hmem
        rcases List.mem_cons.mp hmem with h | hmem
        · cases h
        rcases List.mem_cons.mp hmem with h | hmem
        · cases h
        rcases List.mem_cons.mp hmem with h | hmem
        · cases h
        · exact ih (i + 1) _ hmem
      · simp only [runPipeline, if_pos hs, if_neg hsub]
        intro hmem
        rcases List.mem_cons.mp hmem with h | hmem
        · cases h
        rcases List.mem_cons.mp hmem with h | hmem
        · cases h
        · exact List.not_mem_nil _ hmem
    · simp only [runPipeline, if_neg hs]
      intro hmem
      rcases List.mem_cons.mp hmem with h | hmem
      · cases h
      · exact List.not_mem_nil _ hmem

/-- The script writes only the signedOk and submittedOk statuses; it
never writes a cancellation or rejection marker. -/
theorem runPipeline_no_new_markers (oracle : PipelineOracle) :
    ∀ (r i : Nat) (sts : List TxStatus) (j : Nat) (d : TxStatus),
      (runPipeline oracle i r sts).2.1.getD j d = sts.getD j d ∨
      (runPipeline oracle i r sts).2.1.getD j d = TxStatus.signedOk ∨
      (runPipeline oracle i r sts).2.1.getD j d = TxStatus.submittedOk := by
  intro r
  induction r with
  | zero => intro i sts j d; exact Or.inl rfl
  | succ r' ih =>
    intro i sts j d
    by_cases hs : oracle.signOk i
    · by_cases hsub : oracle.submitOk i
      · simp only [runPipeline, if_pos hs, if_pos hsub]
        rcases ih (i + 1) ((sts.set i TxStatus.signedOk).set i TxStatus.submittedOk) j d
          with h | h | h
        · rw [h]
          rcases statusGetD_set_cases (sts.set i TxStatus.signedOk) i j
            TxStatus.submittedOk d with h2 | h2
          · rcases statusGetD_set_cases sts i j TxStatus.signedOk d with h3 | h3
            · exact Or.inl (h2.trans h3)
            · exact Or.inr (Or.inl (h2.trans h3))
          · exact Or.inr (Or.inr h2)
        · exact Or.inr (Or.inl h)
        · exact Or.inr (Or.inr h)
      · simp only [runPipeline, if_pos hs, if_neg hsub]
        rcases statusGetD_set_cases sts i j TxStatus.signedOk d with h | h
        · exact Or.inl h
        · exact Or.inr (Or.inl h)
    · simp only [runPipeline, if_neg hs]
      exact Or.inl trivial

/-- The canonical event sequence of a fully successful run of the
loop, starting at index i with r transactions: sign, submit,
txid-response, strictly in batch order. -/
def demoCanonicalEvents : Nat → Nat → List DemoEvent
  | _, 0 => []
  | i, r + 1 =>
    DemoEvent.signTx i :: DemoEvent.submitTx i :: DemoEvent.gotTxid i ::
      demoCanonicalEvents (i + 1) r

/-- Whatever the sign and submit outcomes, the events emitted by the
loop are an initial segment of the canonical strictly-ordered
sequence. -/
theorem runPipeline_take_canonical (oracle : PipelineOracle) :
    ∀ (r i : Nat) (sts : List TxStatus),
      ∃ k, (runPipeline oracle i r sts).1 = (demoCanonicalEvents i r).take k := by
  intro r
  induction r with
  | zero => intro i sts; exact ⟨0, rfl⟩
  | succ r' ih =>
    intro i sts
    by_cases hs : oracle.signOk i
    · by_cases hsub : oracle.submitOk i
      · obtain ⟨k, hk⟩ :=
          ih (i + 1) ((sts.set i TxStatus.signedOk).set i TxStatus.submittedOk)
        refine ⟨k + 3, ?_⟩
        simp only [runPipeline, if_pos hs, if_pos hsub, demoCanonicalEvents,
          List.take_succ_cons]
        rw [hk]
      · refine ⟨2, ?_⟩
        simp only [runPipeline, if_pos hs, if_neg hsub, demoCanonicalEvents]
        simp [List.take]
    · refine ⟨1, ?_⟩
      simp only [runPipeline, if_neg hs, demoCanonicalEvents]
      simp [List.take]

/-- Sign events carry indices at or after the loop's starting index. -/
theorem runPipeline_signTx_ge (oracle : PipelineOracle) :
    ∀ (r i : Nat) (sts : List TxStatus) (j : Nat),
      DemoEvent.signTx j ∈ (runPipeline oracle i r sts).1 → i ≤ j := by
  intro r
  induction r with
  | zero => intro i sts j hmem; exact absurd hmem (List.not_mem_nil _)
  | succ r' ih =>
    intro i sts j hmem
    by_cases hs : oracle.signOk i
    · by_cases hsub : oracle.submitOk i
      · simp only [runPipeline, if_pos hs, if_pos hsub] at hmem
        rcases List.mem_cons.mp hmem with h | hmem
        · injection h with h; omega
        rcases List.mem_cons.mp hmem with h | hmem
        · cases h
        rcases List.mem_cons.mp hmem with h | hmem
        · cases h
        · have := ih (i + 1) _ j hmem
          omega
      · simp only [runPipeline, if_pos hs, if_neg hsub] at hmem
        rcases List.mem_cons.mp hmem with h | hmem
        · injection h with h; omega
        rcases List.mem_cons.mp hmem with h | hmem
        · cases h
        · exact absurd hmem (List.not_mem_nil _)
    · simp only [runPipeline, if_neg hs] at hmem
      rcases List.mem_cons.mp hmem with h | hmem
      · injection h with h; omega
      · exact absurd hmem (List.not_mem_nil _)

/-- If the loop signs transaction j+1 then the submission of
transaction j has already resolved successfully: both its submit event
and its txid response appear in the emitted events. -/
theorem runPipeline_sign_after_submit (oracle : PipelineOracle) :
    ∀ (r i : Nat) (sts : List TxStatus) (j : Nat), i ≤ j →
      DemoEvent.signTx (j + 1) ∈ (runPipeline oracle i r sts).1 →
      DemoEvent.submitTx j ∈ (runPipeline oracle i r sts).1 ∧
      DemoEvent.gotTxid j ∈ (runPipeline oracle i r sts).1 := by
  intro r
  induction r with
  | zero => intro i sts j _ hmem; exact absurd hmem (List.not_mem_nil _)
  | succ r' ih =>
    intro i sts j hij hmem
    by_cases hs : oracle.signOk i
    · by_cases hsub : oracle.submitOk i
      · simp only [runPipeline, if_pos hs, if_pos hsub] at hmem ⊢
        have hmem' : DemoEvent.signTx (j + 1) ∈
            (runPipeline oracle (i + 1) r'
              ((sts.set i TxStatus.signedOk).set i TxStatus.submittedOk)).1 := by
          rcases List.mem_cons.mp hmem with h | hmem2
          · injection h with h; omega
          rcases List.mem_cons.mp hmem2 with h | hmem3
          · cases h
          rcases List.mem_cons.mp hmem3 with h | hmem4
          · cases h
          · exact hmem4
        by_cases hji : j = i
        · subst hji
          exact ⟨List.mem_cons.mpr (Or.inr (List.mem_cons.mpr (Or.inl rfl))),
            List.mem_cons.mpr (Or.inr (List.mem_cons.mpr (Or.inr
              (List.mem_cons.mpr (Or.inl rfl)))))⟩
        · have hij' : i + 1 ≤ j := by omega
          have := ih (i + 1) _ j hij' hmem'
          exact ⟨List.mem_cons.mpr (Or.inr (List.mem_cons.mpr (Or.inr
              (List.mem_cons.mpr (Or.inr this.1))))),
            List.mem_cons.mpr (Or.inr (List.mem_cons.mpr (Or.inr
              (List.mem_cons.mpr (Or.inr this.2)))))⟩
      · simp only [runPipeline, if_pos hs, if_neg hsub] at hmem
        rcases List.mem_cons.mp hmem with h | hmem
        · injection h with h; omega
        rcases List.mem_cons.mp hmem with h | hmem
        · cases h
        · exact absurd hmem (List.not_mem_nil _)
    · simp only [runPipeline, if_neg hs] at hmem
      rcases List.mem_cons.mp hmem with h | hmem
      · injection h with h; omega
      · exact absurd hmem (List.not_mem_nil _)

/-! ## The builder core

createTransactions, the mass estimator and kaspaToSompi are implemented
in the external wasm module (kaspa/kaspa_wasm), which is not part of
this repository snapshot; the definitions in this section are modelled
from the spec (sections 3, 4.1-4.3, 6) and settle the claims about the
builder against that model. -/

/-- A spendable coin record as consumed by the builder (spec section 3,
UtxoRecord): outpoint, owning address, amount in base units,
block-acceptance score and coinbase flag. -/
structure UtxoRecord where
  outpoint : Outpoint
  address : String
  amount : Nat
  blockDaaScore : Nat
  isCoinbase : Bool
deriving DecidableEq

/-- A payment output: destination address and amount (spec section 3,
Output). -/
structure TxOutput where
  address : String
  amount : Nat
deriving DecidableEq

/-- A built transaction of a Batch: consumed records, outputs (payments
followed by an optional change output) and the fee (spec section 3,
PendingTransaction). -/
structure PendingTx where
  inputs : List UtxoRecord
  outputs : List TxOutput
  fee : Nat
deriving DecidableEq

/-- Aggregate over a produced Batch (spec section 3, Summary). -/
structure BuildSummary where
  totalFees : Nat
  totalAmount : Nat
  txCount : Nat
  utxoCount : Nat
deriving DecidableEq

/-- Builder failure taxonomy (spec section 7). -/
inductive BuildError where
  | insufficientFunds
  | tooManyOutputs
  | amountOverflow
deriving DecidableEq

/-- Modelled from the spec: the mass estimator (spec section 4.2) is
fixed only by its contract — a pure, integer-arithmetic function of
input count, output count and script complexity class, monotonically
non-decreasing in each argument.  The concrete coefficients below are a
representative choice satisfying that contract. -/
def mass (inputCount outputCount scriptComplexityClass : Nat) : Nat :=
  1000 + 1000 * inputCount + 500 * outputCount + 100 * scriptComplexityClass

/-- Modelled from the spec: minimum fee required for a given mass
(spec section 4.2), a pure, monotone, integer-arithmetic function. -/
def minFee (m : Nat) : Nat :=
  m

/-- Script complexity class of the standard pay-to-address scripts the
demo uses. -/
def scriptClassStd : Nat := 1

/-- Largest representable amount: amounts must fit the unsigned 64-bit
integer domain (spec sections 3 and 4.3, AmountOverflow). -/
def maxAmount : Nat := 2 ^ 64 - 1

/-- Maximum allowed mass of a single transaction (spec section 4.3,
step 3); a configuration constant. -/
def massCeiling : Nat := 100000

/-- Dust threshold under which leftover change is folded into the fee
instead of being emitted as a change output (spec section 4.3, step 4);
a configuration constant. -/
def dustThreshold : Nat := 600

/-- Sum of the amounts of a list of records. -/
def sumAmounts (l : List UtxoRecord) : Nat :=
  (l.map UtxoRecord.amount).sum

/-- Sum of the amounts of a list of outputs. -/
def sumOutputs (l : List TxOutput) : Nat :=
  (l.map TxOutput.amount).sum

/-- Modelled from the spec: closing fee of a chained transaction whose
outputs are a single change output (spec section 4.3, step 3). -/
def chainFee (inputCount : Nat) : Nat :=
  minFee (mass inputCount 1 scriptClassStd)

/-- Modelled from the spec: fee of the final transaction of a Batch,
computed for the payment outputs plus the optional change output
(spec section 4.3, steps 2 and 4). -/
def finalFee (inputCount outputCount : Nat) : Nat :=
  minFee (mass inputCount (outputCount + 1) scriptClassStd)

/-- Modelled from the spec: finalization of the last transaction of a
Batch (spec section 4.3, step 4): the leftover above the target is paid
back as change when it exceeds the dust threshold, and otherwise folded
into the fee.  The caller guarantees acc is the sum of the accumulated
inputs and covers target plus finalFee. -/
def finalizeTx (inputs : List UtxoRecord) (acc : Nat) (outputs : List TxOutput)
    (priorityFee : Nat) (changeAddress : String) : PendingTx :=
  let f := finalFee inputs.length outputs.length
  let change := acc - sumOutputs outputs - priorityFee - f
  if change > dustThreshold then
    { inputs := inputs
      outputs := outputs ++ [{ address := changeAddress, amount := change }]
      fee := priorityFee + f }
  else
    { inputs := inputs
      outputs := outputs
      fee := priorityFee + f + change }

/-- Modelled from the spec: the synthetic record through which a
chained transaction spends the change output of its closed predecessor
(spec section 4.3, step 3).  The outpoint index is the position of the
change output in the predecessor, namely 0 since a closed transaction
carries only its change output. -/
def chainChangeRecord (seq : Nat) (changeAddress : String) (change : Nat) :
    UtxoRecord :=
  { outpoint := { txId := 1000000000 + seq, index := 0 }
    address := changeAddress
    amount := change
    blockDaaScore := 0
    isCoinbase := false }

/-- Modelled from the spec: the change-only transaction that closes the
current accumulation when the mass ceiling is hit (spec section 4.3,
step 3): its outputs are a single change output and its fee is the
closing fee. -/
def chainClosedTx (inputs : List UtxoRecord) (changeAddress : String)
    (change : Nat) : PendingTx :=
  { inputs := inputs
    outputs := [{ address := changeAddress, amount := change }]
    fee := chainFee inputs.length }

/-- Modelled from the spec: the greedy accumulation loop of the builder
(spec section 4.3, steps 2-4).  remaining is the ascending-ordered
candidate list still unconsumed; inputs and acc are the current
transaction's consumed records and their accumulated amount; done is
the Batch built so far.  After each step the fee is recomputed and
coverage rechecked; when admitting one more record would push the
current transaction past the mass ceiling, the transaction is closed
into a change-only predecessor and the chain continues through its
change output. -/
def buildLoop (outputs : List TxOutput) (priorityFee : Nat)
    (changeAddress : String) :
    List UtxoRecord → List UtxoRecord → Nat → List PendingTx →
    Except BuildError (List PendingTx)
  | [], inputs, acc, done =>
    if sumOutputs outputs + priorityFee + finalFee inputs.length outputs.length ≤ acc then
      Except.ok (done ++ [finalizeTx inputs acc outputs priorityFee changeAddress])
    else
      Except.error BuildError.insufficientFunds
  | c :: rest, inputs, acc, done =>
    if sumOutputs outputs + priorityFee + finalFee inputs.length outputs.length ≤ acc then
      Except.ok (done ++ [finalizeTx inputs acc outputs priorityFee changeAddress])
    else if massCeiling < mass (inputs.length + 1) (outputs.length + 1) scriptClassStd then
      if chainFee inputs.length < acc then
        let change := acc - chainFee inputs.length
        let link := chainChangeRecord done.length changeAddress change
        buildLoop outputs priorityFee changeAddress rest [link, c]
          (change + c.amount)
          (done ++ [chainClosedTx inputs changeAddress change])
      else
        Except.error BuildError.insufficientFunds
    else
      buildLoop outputs priorityFee changeAddress rest (inputs ++ [c])
        (acc + c.amount) done

/-- Modelled from the spec: ascending-amount selection order with
outpoint tie-break (spec section 4.1). -/
def utxoSelLe (a b : UtxoRecord) : Prop :=
  a.amount < b.amount ∨
    (a.amount = b.amount ∧
      (a.outpoint.txId < b.outpoint.txId ∨
        (a.outpoint.txId = b.outpoint.txId ∧
          a.outpoint.index ≤ b.outpoint.index)))

instance : DecidableRel utxoSelLe := fun a b => by
  unfold utxoSelLe; infer_instance

/-- Modelled from the spec: the selection ordering applied to the
candidate set (spec section 4.1). -/
def orderCandidates (l : List UtxoRecord) : List UtxoRecord :=
  List.insertionSort utxoSelLe l

/-- Modelled from the spec: the builder entry point
build(utxos, outputs, priorityFee, changeAddress) (spec sections 4.1,
4.3 and 6): validate the amount domain, fail with InsufficientFunds
before constructing anything when the total available is below the
target, and otherwise run the greedy loop over the ascending-ordered
candidates and derive the Summary. -/
def build (utxos : List UtxoRecord) (outputs : List TxOutput)
    (priorityFee : Nat) (changeAddress : String) :
    Except BuildError (List PendingTx × BuildSummary) :=
  if sumAmounts utxos < sumOutputs outputs + priorityFee then
    Except.error BuildError.insufficientFunds
  else if maxAmount < sumAmounts utxos ∨ maxAmount < sumOutputs outputs + priorityFee then
    Except.error BuildError.amountOverflow
  else
    match buildLoop outputs priorityFee changeAddress
        (orderCandidates utxos) [] 0 [] with
    | Except.error e => Except.error e
    | Except.ok txs =>
      Except.ok (txs,
        { totalFees := (txs.map PendingTx.fee).sum
          totalAmount := sumOutputs outputs
          txCount := txs.length
          utxoCount := (txs.map (fun t => t.inputs.length)).sum })

/-! ### Builder invariants -/

theorem sumAmounts_cons (c : UtxoRecord) (l : List UtxoRecord) :
    sumAmounts (c :: l) = c.amount + sumAmounts l := by
  simp [sumAmounts]

theorem sumAmounts_append (l₁ l₂ : List UtxoRecord) :
    sumAmounts (l₁ ++ l₂) = sumAmounts l₁ + sumAmounts l₂ := by
  simp [sumAmounts]

theorem sumOutputs_append (l₁ l₂ : List TxOutput) :
    sumOutputs (l₁ ++ l₂) = sumOutputs l₁ + sumOutputs l₂ := by
  simp [sumOutputs]

theorem sumOutputs_single (a : String) (v : Nat) :
    sumOutputs [{ address := a, amount := v }] = v := by
  simp [sumOutputs]

theorem sumAmounts_orderCandidates (l : List UtxoRecord) :
    sumAmounts (orderCandidates l) = sumAmounts l := by
  unfold sumAmounts orderCandidates
  exact List.Perm.sum_eq (List.Perm.map _ (List.perm_insertionSort _ l))

/-- Finalization preserves the exact balance equation: the consumed
amount equals payments plus change (when emitted) plus fee, with dust
change folded into the fee. -/
theorem finalizeTx_balance (inputs : List UtxoRecord) (acc : Nat)
    (outputs : List TxOutput) (priorityFee : Nat) (changeAddress : String)
    (hacc : acc = sumAmounts inputs)
    (hcov : sumOutputs outputs + priorityFee +
      finalFee inputs.length outputs.length ≤ acc) :
    (finalizeTx inputs acc outputs priorityFee changeAddress).inputs = inputs ∧
    sumAmounts (finalizeTx inputs acc outputs priorityFee changeAddress).inputs =
      sumOutputs (finalizeTx inputs acc outputs priorityFee changeAddress).outputs +
        (finalizeTx inputs acc outputs priorityFee changeAddress).fee := by
  simp only [finalizeTx]
  by_cases hdust :
      acc - sumOutputs outputs - priorityFee -
        finalFee inputs.length outputs.length > dustThreshold
  · rw [if_pos hdust]
    refine ⟨rfl, ?_⟩
    simp only []
    rw [sumOutputs_append, sumOutputs_single]
    omega
  · rw [if_neg hdust]
    refine ⟨rfl, ?_⟩
    simp only []
    omega

set_option maxRecDepth 8000 in
/-- Invariant of the greedy loop: when it succeeds, every transaction
of the produced Batch balances exactly — consumed amount equals
outputs plus fee — and all consumed amounts stay within the validated
integer domain. -/
theorem buildLoop_balance (outputs : List TxOutput) (priorityFee : Nat)
    (changeAddress : String) :
    ∀ (remaining inputs : List UtxoRecord) (acc : Nat) (done : List PendingTx),
      acc = sumAmounts inputs →
      sumAmounts remaining + acc ≤ maxAmount →
      (∀ tx ∈ done, sumAmounts tx.inputs = sumOutputs tx.outputs + tx.fee ∧
        sumAmounts tx.inputs ≤ maxAmount) →
      ∀ txs, buildLoop outputs priorityFee changeAddress remaining inputs acc done =
        Except.ok txs →
      ∀ tx ∈ txs, sumAmounts tx.inputs = sumOutputs tx.outputs + tx.fee ∧
        sumAmounts tx.inputs ≤ maxAmount := by
  intro remaining
  induction remaining with
  | nil =>
    intro inputs acc done hacc hbound hdone txs hok tx htx
    simp only [buildLoop] at hok
    by_cases hcov : sumOutputs outputs + priorityFee +
        finalFee inputs.length outputs.length ≤ acc
    · rw [if_pos hcov] at hok
      injection hok with hok
      subst hok
      rcases List.mem_append.mp htx with h | h
      · exact hdone tx h
      · have heq : tx = finalizeTx inputs acc outputs priorityFee changeAddress := by
          rcases List.mem_cons.mp h with h' | h'
          · exact h'
          · exact absurd h' (List.not_mem_nil _)
        subst heq
        obtain ⟨hin, hbal⟩ :=
          finalizeTx_balance inputs acc outputs priorityFee changeAddress hacc hcov
        refine ⟨hbal, ?_⟩
        rw [hin, ← hacc]
        have h0 : sumAmounts ([] : List UtxoRecord) = 0 := rfl
        omega
    · rw [if_neg hcov] at hok
      cases hok
  | cons c rest ih =>
    intro inputs acc done hacc hbound hdone txs hok tx htx
    have hrest := sumAmounts_cons c rest
    simp only [buildLoop] at hok
    by_cases hcov : sumOutputs outputs + priorityFee +
        finalFee inputs.length outputs.length ≤ acc
    · rw [if_pos hcov] at hok
      injection hok with hok
      subst hok
      rcases List.mem_append.mp htx with h | h
      · exact hdone tx h
      · have heq : tx = finalizeTx inputs acc outputs priorityFee changeAddress := by
          rcases List.mem_cons.mp h with h' | h'
          · exact h'
          · exact absurd h' (List.not_mem_nil _)
        subst heq
        obtain ⟨hin, hbal⟩ :=
          finalizeTx_balance inputs acc outputs priorityFee changeAddress hacc hcov
        refine ⟨hbal, ?_⟩
        rw [hin, ← hacc]
        omega
    · rw [if_neg hcov] at hok
      by_cases hceil : massCeiling <
          mass (inputs.length + 1) (outputs.length + 1) scriptClassStd
      · rw [if_pos hceil] at hok
        by_cases hfee : chainFee inputs.length < acc
        · rw [if_pos hfee] at hok
          have hacc' : acc - chainFee inputs.length + c.amount =
              sumAmounts [chainChangeRecord done.length changeAddress
                (acc - chainFee inputs.length), c] := by
            simp [sumAmounts, chainChangeRecord]
          have hbound' : sumAmounts rest +
              (acc - chainFee inputs.length + c.amount) ≤ maxAmount := by
            omega
          have hdone' : ∀ tx' ∈ done ++ [chainClosedTx inputs changeAddress
              (acc - chainFee inputs.length)],
              sumAmounts tx'.inputs = sumOutputs tx'.outputs + tx'.fee ∧
              sumAmounts tx'.inputs ≤ maxAmount := by
            intro tx' htx'
            rcases List.mem_append.mp htx' with h | h
            · exact hdone tx' h
            · have heq : tx' = chainClosedTx inputs changeAddress
                  (acc - chainFee inputs.length) := by
                rcases List.mem_cons.mp h with h' | h'
                · exact h'
                · exact absurd h' (List.not_mem_nil _)
              subst heq
              simp only [chainClosedTx]
              rw [sumOutputs_single]
              constructor
              · omega
              · omega
          exact ih _ _ _ hacc' hbound' hdone' txs hok tx htx
        · rw [if_neg hfee] at hok
          cases hok
      · rw [if_neg hceil] at hok
        have hacc' : acc + c.amount = sumAmounts (inputs ++ [c]) := by
          rw [sumAmounts_append, sumAmounts_cons]
          have h0 : sumAmounts ([] : List UtxoRecord) = 0 := rfl
          omega
        have hbound' : sumAmounts rest + (acc + c.amount) ≤ maxAmount := by
          omega
        exact ih _ _ _ hacc' hbound' hdone txs hok tx htx

/-! ## Arguments and the build request of the demo (source lines 19-20
and 58-63) -/

/-- The fixed fallback destination address of the demo (source line
20). -/
def defaultDestination : String :=
  "kaspatest:qqkl0ct62rv6dz74pff2kx5sfyasl4z28uekevau23g877r5gt6userwyrmtt"

/-- Modelled from the spec: exact conversion from decimal KAS to the
integer base unit (spec section 6, toBaseUnit); kaspaToSompi lives in
the external wasm module.  One KAS is 100,000,000 sompi. -/
def kaspaToSompi (kas : ℚ) : Nat :=
  (kas * 100000000).num.toNat

/-- The destination chosen on source line 20 by
args.shift() || fallback: JavaScript takes the fallback when the
argument list is empty (shift yields undefined, falsy) and also when
the first argument is the empty string (the only falsy string). -/
def destinationOf (args : List String) : String :=
  match args with
  | [] => defaultDestination
  | a :: _ => if a = "" then defaultDestination else a

/-- The request object the demo passes to createTransactions (source
lines 58-63): one output paying kaspaToSompi(0.2) to the destination,
priority fee 0, and the sender's own address as change address. -/
structure BuildRequest where
  outputs : List (String × Nat)
  priorityFee : Nat
  changeAddress : String
deriving DecidableEq

/-- The build request issued by runDemo given the command line
arguments and the sender's derived address. -/
def demoRequest (args : List String) (senderAddress : String) : BuildRequest :=
  { outputs := [(destinationOf args, kaspaToSompi (0.2 : ℚ))]
    priorityFee := 0
    changeAddress := senderAddress }

/-! ## Concrete fixtures used by witnesses and counterexamples -/

/-- One concrete spendable record of 1 KAS. -/
def wUtxo : UtxoRecord :=
  { outpoint := { txId := 7, index := 0 }
    address := "sender"
    amount := 100000000
    blockDaaScore := 0
    isCoinbase := false }

/-- One concrete payment output of 0.2 KAS. -/
def wOutput : TxOutput :=
  { address := "dest", amount := 20000000 }

/-- The transaction the modelled builder produces for wUtxo and
wOutput. -/
def wTx : PendingTx :=
  { inputs := [wUtxo]
    outputs := [wOutput, { address := "chg", amount := 79996900 }]
    fee := 3100 }

/-- The summary the modelled builder produces alongside wTx. -/
def wSummary : BuildSummary :=
  { totalFees := 3100, totalAmount := 20000000, txCount := 1, utxoCount := 1 }

/-- Oracle under which every sign and submit call succeeds. -/
def allOkOracle : PipelineOracle :=
  { signOk := fun _ => true, submitOk := fun _ => true }

/-- Oracle under which signing always succeeds and submission fails
exactly for the second transaction (index 1). -/
def failSecondOracle : PipelineOracle :=
  { signOk := fun _ => true, submitOk := fun i => ! (i == 1) }

/-- A concrete entry of amount 500 with outpoint transaction id 1. -/
def ceEntryA : RpcUtxoEntry :=
  { outpoint := { txId := 1, index := 0 }, utxoEntry := { amount := 500 } }

/-- A concrete entry of the same amount 500 with outpoint transaction
id 2. -/
def ceEntryB : RpcUtxoEntry :=
  { outpoint := { txId := 2, index := 0 }, utxoEntry := { amount := 500 } }

/-- A concrete entry of amount 100 with outpoint transaction id 3. -/
def ceEntryC : RpcUtxoEntry :=
  { outpoint := { txId := 3, index := 0 }, utxoEntry := { amount := 100 } }

/-! ## Claims -/

/-- C1: for every transaction in a Batch returned by a successful call
to build/createTransactions, the sum of the amounts of its inputs
equals the sum of the amounts of its outputs plus its fee, exactly,
and every such sum stays within the validated unsigned 64-bit amount
domain, so no summation overflows. -/
theorem c1_batch_balance (utxos : List UtxoRecord) (outputs : List TxOutput)
    (priorityFee : Nat) (changeAddress : String)
    (txs : List PendingTx) (s : BuildSummary)
    (hok : build utxos outputs priorityFee changeAddress = Except.ok (txs, s)) :
    ∀ tx ∈ txs, sumAmounts tx.inputs = sumOutputs tx.outputs + tx.fee ∧
      sumAmounts tx.inputs ≤ maxAmount := by
  unfold build at hok
  by_cases h1 : sumAmounts utxos < sumOutputs outputs + priorityFee
  · rw [if_pos h1] at hok
    cases hok
  · rw [if_neg h1] at hok
    by_cases h2 : maxAmount < sumAmounts utxos ∨
        maxAmount < sumOutputs outputs + priorityFee
    · rw [if_pos h2] at hok
      cases hok
    · rw [if_neg h2] at hok
      cases hloop : buildLoop outputs priorityFee changeAddress
          (orderCandidates utxos) [] 0 [] with
      | error e =>
        rw [hloop] at hok
        cases hok
      | ok txs' =>
        rw [hloop] at hok
        injection hok with hok
        have htxs : txs' = txs := congrArg Prod.fst hok
        subst htxs
        have hnotover := not_or.mp h2
        have hbound0 : sumAmounts (orderCandidates utxos) + 0 ≤ maxAmount := by
          rw [sumAmounts_orderCandidates]
          omega
        exact buildLoop_balance outputs priorityFee changeAddress
          (orderCandidates utxos) [] 0 [] rfl hbound0
          (fun tx h => absurd h (List.not_mem_nil _)) txs' hloop

/-- Witness for c1_batch_balance: the modelled builder succeeds on one
1 KAS record and a 0.2 KAS payment, and the produced transaction
balances exactly. -/
theorem c1_batch_balance_witness :
    build [wUtxo] [wOutput] 0 "chg" = Except.ok ([wTx], wSummary) ∧
    ∀ tx ∈ [wTx], sumAmounts tx.inputs = sumOutputs tx.outputs + tx.fee ∧
      sumAmounts tx.inputs ≤ maxAmount :=
  ⟨rfl, c1_batch_balance [wUtxo] [wOutput] 0 "chg" [wTx] wSummary rfl⟩

/-- C5: whenever the available total is below the requested outputs
plus the priority fee, build fails with InsufficientFunds and produces
zero transactions — no partial Batch is ever returned. -/
theorem c5_insufficient_funds (utxos : List UtxoRecord) (outputs : List TxOutput)
    (priorityFee : Nat) (changeAddress : String)
    (hlt : sumAmounts utxos < sumOutputs outputs + priorityFee) :
    build utxos outputs priorityFee changeAddress =
      Except.error BuildError.insufficientFunds ∧
    ∀ txs s, build utxos outputs priorityFee changeAddress ≠
      Except.ok (txs, s) := by
  have h : build utxos outputs priorityFee changeAddress =
      Except.error BuildError.insufficientFunds := by
    unfold build
    rw [if_pos hlt]
  refine ⟨h, ?_⟩
  intro txs s hok
  rw [h] at hok
  cases hok

/-- Witness for c5_insufficient_funds: asking for 2 KAS from a single
1 KAS record fails with InsufficientFunds. -/
theorem c5_insufficient_funds_witness :
    sumAmounts [wUtxo] < sumOutputs [{ address := "dest", amount := 200000000 }] + 0 ∧
    (build [wUtxo] [{ address := "dest", amount := 200000000 }] 0 "chg" =
      Except.error BuildError.insufficientFunds ∧
    ∀ txs s, build [wUtxo] [{ address := "dest", amount := 200000000 }] 0 "chg" ≠
      Except.ok (txs, s)) :=
  ⟨by decide,
    c5_insufficient_funds [wUtxo] [{ address := "dest", amount := 200000000 }] 0 "chg"
      (by decide)⟩

/-- C7: the mass estimator and the minimum-fee function are pure
integer functions, monotonically non-decreasing in every argument:
adding an input or an output never decreases the computed mass or the
required minimum fee. -/
theorem c7_mass_minFee_monotone (i i' o o' c c' m m' : Nat)
    (hi : i ≤ i') (ho : o ≤ o') (hc : c ≤ c') (hm : m ≤ m') :
    mass i o c ≤ mass i' o' c' ∧ minFee m ≤ minFee m' ∧
    minFee (mass i o c) ≤ minFee (mass i' o' c') := by
  unfold mass minFee
  refine ⟨?_, hm, ?_⟩ <;> omega

/-- Witness for c7_mass_minFee_monotone at concrete counts. -/
theorem c7_mass_minFee_monotone_witness :
    1 ≤ 2 ∧ 2 ≤ 3 ∧ 1 ≤ 1 ∧ 100 ≤ 200 ∧
    (mass 1 2 1 ≤ mass 2 3 1 ∧ minFee 100 ≤ minFee 200 ∧
      minFee (mass 1 2 1) ≤ minFee (mass 2 3 1)) :=
  ⟨by decide, by decide, by decide, by decide,
    c7_mass_minFee_monotone 1 2 2 3 1 1 100 200
      (by decide) (by decide) (by decide) (by decide)⟩

/-- C10 counterexample: a supplied first argument that is the empty
string is falsy in JavaScript, so the destination falls back to the
fixed address instead of being the first argument, refuting the claim
that any supplied argument becomes the destination. -/
theorem c10_counterexample :
    destinationOf [""] = defaultDestination ∧ defaultDestination ≠ "" :=
  ⟨rfl, by decide⟩

/-- C10 (amended): when no command-line argument is supplied, or the
first argument is the empty string, the destination is the fixed
testnet address; for any other first argument the destination is that
argument; and every build request the demo issues has exactly one
output paying kaspaToSompi(0.2) = 20,000,000 sompi to the destination,
priority fee 0, and the sender's own address as change address. -/
theorem c10_request_shape (args : List String) (senderAddress : String)
    (a : String) (rest : List String) (ha : a ≠ "") :
    destinationOf [] = defaultDestination ∧
    destinationOf ("" :: rest) = defaultDestination ∧
    destinationOf (a :: rest) = a ∧
    demoRequest args senderAddress =
      { outputs := [(destinationOf args, 20000000)]
        priorityFee := 0
        changeAddress := senderAddress } ∧
    kaspaToSompi (0.2 : ℚ) = 20000000 := by
  have hconv : kaspaToSompi (0.2 : ℚ) = 20000000 := by
    have h : (0.2 : ℚ) * 100000000 = 20000000 := by norm_num
    rw [kaspaToSompi, h]
    decide
  refine ⟨rfl, by simp [destinationOf], by simp [destinationOf, ha], ?_, hconv⟩
  rw [demoRequest, hconv]

/-- Witness for c10_request_shape at a concrete non-empty argument. -/
theorem c10_request_shape_witness :
    ("abc" : String) ≠ "" ∧
    (destinationOf [] = defaultDestination ∧
    destinationOf ("" :: []) = defaultDestination ∧
    destinationOf ("abc" :: []) = "abc" ∧
    demoRequest ["abc"] "senderAddr" =
      { outputs := [(destinationOf ["abc"], 20000000)]
        priorityFee := 0
        changeAddress := "senderAddr" } ∧
    kaspaToSompi (0.2 : ℚ) = 20000000) :=
  ⟨by decide, c10_request_shape ["abc"] "senderAddr" "abc" [] (by decide)⟩

/-- C2 counterexample: in a Batch of three transactions where
submission of transaction 2 (index 1) fails, the script leaves the
third transaction with its initial built status: nothing is ever
marked dependencyCancelled and no distinct dependency report exists,
refuting the claimed DependencyCancelled marking. -/
theorem c2_counterexample :
    (runPipeline failSecondOracle 0 3 (List.replicate 3 TxStatus.built)).2.1 =
      [TxStatus.submittedOk, TxStatus.signedOk, TxStatus.built] ∧
    (runPipeline failSecondOracle 0 3
        (List.replicate 3 TxStatus.built)).2.1.getD 2 TxStatus.built ≠
      TxStatus.dependencyCancelled := by
  decide

/-- C2 (amended): if signing or submission of transaction i fails,
every transaction after i in the Batch is never signed and never
submitted (so it is not Submitted); but the script performs no
DependencyCancelled marking and no distinct dependency report — the
later transactions simply retain their initial built status while the
rejected promise propagates. -/
theorem c2_failure_short_circuit (oracle : PipelineOracle) (n i j : Nat)
    (hfail : txOk oracle i = false) (hij : i < j) :
    DemoEvent.signTx j ∉
      (runPipeline oracle 0 n (List.replicate n TxStatus.built)).1 ∧
    DemoEvent.submitTx j ∉
      (runPipeline oracle 0 n (List.replicate n TxStatus.built)).1 ∧
    (runPipeline oracle 0 n
        (List.replicate n TxStatus.built)).2.1.getD j TxStatus.built =
      TxStatus.built := by
  have h := runPipeline_untouched oracle j n 0 (List.replicate n TxStatus.built)
    ⟨i, Nat.zero_le i, hij, hfail⟩
  refine ⟨h.1, h.2.1, ?_⟩
  rw [h.2.2 TxStatus.built]
  exact statusGetD_replicate n j TxStatus.built

/-- Witness for c2_failure_short_circuit: submission of transaction 2
(index 1) fails, and transaction 3 (index 2) is untouched. -/
theorem c2_failure_short_circuit_witness :
    txOk failSecondOracle 1 = false ∧ 1 < 2 ∧
    (DemoEvent.signTx 2 ∉
      (runPipeline failSecondOracle 0 3 (List.replicate 3 TxStatus.built)).1 ∧
    DemoEvent.submitTx 2 ∉
      (runPipeline failSecondOracle 0 3 (List.replicate 3 TxStatus.built)).1 ∧
    (runPipeline failSecondOracle 0 3
        (List.replicate 3 TxStatus.built)).2.1.getD 2 TxStatus.built =
      TxStatus.built) :=
  ⟨by decide, by decide,
    c2_failure_short_circuit failSecondOracle 3 1 2 (by decide) (by decide)⟩

/-- C3 counterexample: two enumerations of the same two-element set of
equal-amount entries sort to themselves — the comparator applies no
outpoint tie-break and the sort is stable — so the selection ordering
differs between the two enumerations of one set, refuting that it is a
function of the set. -/
theorem c3_counterexample :
    List.Perm [ceEntryA, ceEntryB] [ceEntryB, ceEntryA] ∧
    jsSortEntries [ceEntryA, ceEntryB] = [ceEntryA, ceEntryB] ∧
    jsSortEntries [ceEntryB, ceEntryA] = [ceEntryB, ceEntryA] ∧
    jsSortEntries [ceEntryA, ceEntryB] ≠ jsSortEntries [ceEntryB, ceEntryA] :=
  ⟨List.Perm.swap ceEntryB ceEntryA [], rfl, rfl, by decide⟩

/-- C3 (amended): selection ordering is a pure, deterministic function
of the input sequence; it is a function of the input set whenever all
amounts are pairwise distinct — two enumerations of such a set sort
identically — but equal-amount entries keep their insertion order (no
outpoint tie-break is applied), so for sets with repeated amounts the
enumeration order can change the resulting ordering and hence the
Batch. -/
theorem c3_selection_deterministic (l₁ l₂ : List RpcUtxoEntry)
    (hp : List.Perm l₁ l₂)
    (hd : l₁.Pairwise (fun a b => a.utxoEntry.amount ≠ b.utxoEntry.amount)) :
    jsSortEntries l₁ = jsSortEntries l₂ := by
  apply eq_of_perm_sorted_distinct
  · exact (jsSortEntries_perm l₁).trans (hp.trans (jsSortEntries_perm l₂).symm)
  · exact jsSortEntries_sorted l₁
  · exact jsSortEntries_sorted l₂
  · exact (List.Perm.pairwise_iff (fun h => Ne.symm h)
      (jsSortEntries_perm l₁)).mpr hd

/-- Witness for c3_selection_deterministic: two enumerations of a set
with distinct amounts 500 and 100 sort to the same ordering. -/
theorem c3_selection_deterministic_witness :
    List.Perm [ceEntryA, ceEntryC] [ceEntryC, ceEntryA] ∧
    ([ceEntryA, ceEntryC] : List RpcUtxoEntry).Pairwise
      (fun a b => a.utxoEntry.amount ≠ b.utxoEntry.amount) ∧
    jsSortEntries [ceEntryA, ceEntryC] = jsSortEntries [ceEntryC, ceEntryA] :=
  ⟨List.Perm.swap ceEntryC ceEntryA [], by decide,
    c3_selection_deterministic [ceEntryA, ceEntryC] [ceEntryC, ceEntryA]
      (List.Perm.swap ceEntryC ceEntryA []) (by decide)⟩

/-- C4: transactions are signed and submitted strictly in Batch order.
Whatever the outcomes of the external calls, the loop's events are an
initial segment of the canonical per-transaction
sign-submit-txid sequence, and transaction j+1 is signed only after
transaction j's submission has resolved with the node's txid
response. -/
theorem c4_strict_ordering (n : Nat) (oracle : PipelineOracle) :
    (∃ k, (runPipeline oracle 0 n (List.replicate n TxStatus.built)).1 =
      (demoCanonicalEvents 0 n).take k) ∧
    ∀ j, DemoEvent.signTx (j + 1) ∈
        (runPipeline oracle 0 n (List.replicate n TxStatus.built)).1 →
      DemoEvent.submitTx j ∈
        (runPipeline oracle 0 n (List.replicate n TxStatus.built)).1 ∧
      DemoEvent.gotTxid j ∈
        (runPipeline oracle 0 n (List.replicate n TxStatus.built)).1 := by
  refine ⟨runPipeline_take_canonical oracle n 0 _, ?_⟩
  intro j hmem
  exact runPipeline_sign_after_submit oracle n 0 _ j (Nat.zero_le j) hmem

/-- C6: when the UTXO source returns an empty sequence the script does
not call createTransactions at all: it reports the absence of UTXOs as
an informational message, proceeds to rpc.disconnect(), and the run
completes without an error. -/
theorem c6_empty_entries_no_build (n : Nat) (oracle : PipelineOracle) :
    runDemoModel [] n oracle =
      ([DemoEvent.reportNoUtxos, DemoEvent.disconnectRpc], [], true) ∧
    DemoEvent.callBuild ∉ (runDemoModel [] n oracle).1 ∧
    (runDemoModel [] n oracle).2.2 = true := by
  refine ⟨rfl, ?_, rfl⟩
  show DemoEvent.callBuild ∉ [DemoEvent.reportNoUtxos, DemoEvent.disconnectRpc]
  decide

/-- C8: the comparator returns a positive number exactly when the
first amount is larger, a negative number exactly when it is smaller,
and zero (JavaScript's negative zero) exactly when the amounts are
equal; consequently entries.sort arranges the entries in non-decreasing
amount, and entries of equal amount keep their original relative order
— no outpoint tie-break is applied. -/
theorem c8_comparator_sort (a b : RpcUtxoEntry) (l : List RpcUtxoEntry) (v : Nat) :
    (0 < sortCompare a b ↔ b.utxoEntry.amount < a.utxoEntry.amount) ∧
    (sortCompare a b < 0 ↔ a.utxoEntry.amount < b.utxoEntry.amount) ∧
    (sortCompare a b = 0 ↔ a.utxoEntry.amount = b.utxoEntry.amount) ∧
    (jsSortEntries l).Pairwise
      (fun x y => x.utxoEntry.amount ≤ y.utxoEntry.amount) ∧
    (jsSortEntries l).filter (fun e => e.utxoEntry.amount = v) =
      l.filter (fun e => e.utxoEntry.amount = v) := by
  refine ⟨?_, ?_, ?_, ?_, jsSortEntries_stable v l⟩
  · unfold sortCompare
    rcases lt_trichotomy a.utxoEntry.amount b.utxoEntry.amount with h | h | h
    · rw [if_neg (by omega), if_pos h]
      omega
    · rw [if_neg (by omega), if_neg (by omega)]
      omega
    · rw [if_pos h]
      omega
  · unfold sortCompare
    rcases lt_trichotomy a.utxoEntry.amount b.utxoEntry.amount with h | h | h
    · rw [if_neg (by omega), if_pos h]
      omega
    · rw [if_neg (by omega), if_neg (by omega)]
      omega
    · rw [if_pos h]
      omega
  · unfold sortCompare
    rcases lt_trichotomy a.utxoEntry.amount b.utxoEntry.amount with h | h | h
    · rw [if_neg (by omega), if_pos h]
      omega
    · rw [if_neg (by omega), if_neg (by omega)]
      omega
    · rw [if_pos h]
      omega
  · exact List.Pairwise.imp (fun h => (entryLe_iff _ _).mp h)
      (jsSortEntries_sorted l)

/-- C9: when pending.sign or pending.submit rejects for some
transaction of the batch, the exception propagates out of the
submission loop: the run does not complete, no later transaction is
signed or submitted, no transaction's status is ever set to any
cancelled or rejected marker by the script, and rpc.disconnect() is
never executed, so the RPC connection is left open. -/
theorem c9_exception_leaves_connection_open (entries : List RpcUtxoEntry)
    (n : Nat) (oracle : PipelineOracle) (i : Nat)
    (hne : entries ≠ []) (hin : i < n) (hfail : txOk oracle i = false) :
    (runDemoModel entries n oracle).2.2 = false ∧
    DemoEvent.disconnectRpc ∉ (runDemoModel entries n oracle).1 ∧
    (∀ j, i < j →
      DemoEvent.signTx j ∉ (runDemoModel entries n oracle).1 ∧
      DemoEvent.submitTx j ∉ (runDemoModel entries n oracle).1) ∧
    ∀ j, (runDemoModel entries n oracle).2.1.getD j TxStatus.built ≠
        TxStatus.dependencyCancelled ∧
      (runDemoModel entries n oracle).2.1.getD j TxStatus.built ≠
        TxStatus.rejectedByNode := by
  have hemp : entries.isEmpty = false := by
    cases entries with
    | nil => exact absurd rfl hne
    | cons e es => rfl
  have hrunfail : (runPipeline oracle 0 n (List.replicate n TxStatus.built)).2.2 =
      false :=
    runPipeline_fails oracle n 0 (List.replicate n TxStatus.built)
      ⟨i, Nat.zero_le i, by omega, hfail⟩
  have hres : runDemoModel entries n oracle =
      (DemoEvent.callBuild ::
        (runPipeline oracle 0 n (List.replicate n TxStatus.built)).1,
        (runPipeline oracle 0 n (List.replicate n TxStatus.built)).2.1, false) := by
    unfold runDemoModel
    rw [hemp]
    simp only [Bool.false_eq_true, if_false]
    rw [hrunfail]
    simp only [Bool.false_eq_true, if_false]
  rw [hres]
  refine ⟨rfl, ?_, ?_, ?_⟩
  · intro hmem
    rcases List.mem_cons.mp hmem with h | hmem
    · cases h
    · exact runPipeline_no_disconnect oracle n 0 _ hmem
  · intro j hij
    have h := runPipeline_untouched oracle j n 0 (List.replicate n TxStatus.built)
      ⟨i, Nat.zero_le i, hij, hfail⟩
    constructor
    · intro hmem
      rcases List.mem_cons.mp hmem with h' | hmem
      · cases h'
      · exact h.1 hmem
    · intro hmem
      rcases List.mem_cons.mp hmem with h' | hmem
      · cases h'
      · exact h.2.1 hmem
  · intro j
    rcases runPipeline_no_new_markers oracle n 0
        (List.replicate n TxStatus.built) j TxStatus.built with h | h | h
    · rw [h, statusGetD_replicate]
      decide
    · rw [h]
      decide
    · rw [h]
      decide

/-- Witness for c9_exception_leaves_connection_open: one entry, three
transactions, submission of the second fails. -/
theorem c9_exception_witness :
    ([ceEntryA] : List RpcUtxoEntry) ≠ [] ∧ 1 < 3 ∧
    txOk failSecondOracle 1 = false ∧
    ((runDemoModel [ceEntryA] 3 failSecondOracle).2.2 = false ∧
    DemoEvent.disconnectRpc ∉ (runDemoModel [ceEntryA] 3 failSecondOracle).1 ∧
    (∀ j, 1 < j →
      DemoEvent.signTx j ∉ (runDemoModel [ceEntryA] 3 failSecondOracle).1 ∧
      DemoEvent.submitTx j ∉ (runDemoModel [ceEntryA] 3 failSecondOracle).1) ∧
    ∀ j, (runDemoModel [ceEntryA] 3 failSecondOracle).2.1.getD j TxStatus.built ≠
        TxStatus.dependencyCancelled ∧
      (runDemoModel [ceEntryA] 3 failSecondOracle).2.1.getD j TxStatus.built ≠
        TxStatus.rejectedByNode) :=
  ⟨by decide, by decide, by decide,
    c9_exception_leaves_connection_open [ceEntryA] 3 failSecondOracle 1
      (by decide) (by decide) (by decide)⟩
